import Mathlib

/-!
Verification of the audit definition and rendering core
(`sqlmesh/core/audit/definition.py`).

The development shallowly embeds the module: SQL statements already parsed by
the external sqlglot library become the inductive `Expr`; the two audit
variants become Lean structures; the external query renderer, table-reference
extractor and text-diff collaborators are passed in as function parameters,
exactly as the module receives them; pydantic field coercion becomes explicit
validator functions; the lazily memoized dependency cache becomes explicit
state passing.
-/

set_option autoImplicit false

/-- A code artifact from the python environment (`Executable` from
`sqlmesh.utils.metaprogramming`, an external collaborator): only its `kind`
participates in the sort key used by `sorted_python_env`, the payload stands
for the rest of the record. -/
structure Executable where
  kind : String
  payload : String
deriving DecidableEq

/-- Time-like render bounds are already strings by the time they reach this
core (`TimeLike` from `sqlmesh.utils.date`). -/
abbrev TimeLike := String

/-- Modelled from the spec: `c.EPOCH`, the default time bound used when
`start`/`end` are not supplied (`sqlmesh.core.constants` is outside the shown
core). -/
def EPOCH : TimeLike := "1970-01-01"

/-- Column-name-to-type metadata returned by best-effort schema
introspection. -/
abbrev Ctt := List (String × String)

/-- Shallow embedding of the sqlglot expression nodes this module touches.
`auditHeader` is `d.Audit` (a list of named properties, each with an optional
value expression); `select`/`union` are the `exp.Subqueryable` classes;
`macroDef` is `d.MacroDef`; `quoted` marks the output of the external
`quote_identifiers` call; `commented` carries a comment attached to a node;
`other` stands for any statement kind the module does not inspect. -/
inductive Expr where
  | column (name : String)
  | lit (value : String)
  | boolean (b : Bool)
  | star
  | table (name : String)
  | quoted (e : Expr) (dialect : String)
  | eq (left right : Expr)
  | between (e lo hi : Expr)
  | tuple (items : List Expr)
  | array (items : List Expr)
  | select (projections : List Expr) (source : Option Expr) (whereClause : Option Expr)
  | union (left right : Expr)
  | subquery (e : Expr)
  | auditHeader (props : List (String × Option Expr))
  | macroDef (name : String) (body : String)
  | jinjaQuery (text : String)
  | commented (comment : String) (e : Expr)
  | other (tag : String)

/-- The `.name` attribute of a sqlglot expression: the textual name of its
`this` argument (empty for nodes with no natural name). -/
def Expr.name : Expr → String
  | .column n => n
  | .lit v => v
  | .table n => n
  | .boolean b => if b then "TRUE" else "FALSE"
  | .commented _ e => e.name
  | _ => ""

/-- `isinstance(e, exp.Subqueryable)`: SELECT-class expressions. A comment
attached to a node does not change its class. -/
def Expr.isSubqueryable : Expr → Bool
  | .select _ _ _ => true
  | .union _ _ => true
  | .commented _ e => e.isSubqueryable
  | _ => false

/-- `isinstance(e, d.MacroDef)`. -/
def Expr.isMacroDef : Expr → Bool
  | .macroDef _ _ => true
  | .commented _ e => e.isMacroDef
  | _ => false

/-- The properties of a `d.Audit` header statement, or `none` when the
statement is not a header (`isinstance(e, d.Audit)` plus `e.expressions`). -/
def Expr.auditProps : Expr → Option (List (String × Option Expr))
  | .auditHeader props => some props
  | .commented _ e => e.auditProps
  | _ => none

/-- `isinstance(e, d.Audit)`. -/
def isAuditHeader (e : Expr) : Bool :=
  e.auditProps.isSome

/-- A value passed through a pydantic keyword dictionary: python `None`, a
plain string, or a sqlglot expression. -/
inductive PyVal where
  | pnone
  | pstr (s : String)
  | pexpr (e : Expr)

/-- Python's `str.lower`, evaluated character by character so that concrete
instances reduce inside the kernel. -/
def lowerStr (s : String) : String :=
  String.mk (s.data.map Char.toLower)

/-- Right-biased dictionary lookup: python dict literals keep the last
binding for a repeated key. -/
def dictGetLast {α : Type} (l : List (String × α)) (k : String) : Option α :=
  (l.reverse.find? (fun p => p.1 == k)).map Prod.snd

/-- `audit_string_validator`: an expression reduces to its lowercased textual
name, any other non-`None` value is stringified and lowercased. -/
def audit_string_validator : PyVal → Option String
  | .pexpr e => some (lowerStr e.name)
  | .pstr s => some (lowerStr s)
  | .pnone => none

/-- Modelled from the spec: `bool_validator` from `sqlmesh.core.model.common`
(the external validation framework's boolean coercion, outside the shown
core): a SQL boolean literal yields its value, any other expression is truthy
unless its name is false/no, other values follow python truthiness. -/
def bool_validator : PyVal → Bool
  | .pexpr (.boolean b) => b
  | .pexpr e => !(lowerStr e.name == "false" || lowerStr e.name == "no")
  | .pstr s => !(s == "")
  | .pnone => false

/-- `_maybe_parse_arg_pair`: an equality expression decomposes into
`(left.name, right)`; anything else is a configuration error. -/
def maybe_parse_arg_pair : Expr → Except String (String × Expr)
  | .eq l r => .ok (l.name, r)
  | _ => .error "Invalid defaults expression"

/-- `audit_map_validator`: defaults supplied as a tuple or array of equality
expressions decompose into a mapping; any other shape is a configuration
error. (The python `dict` branch cannot arise from a parsed statement, and
`dict(...)` keeps the last binding for a repeated key, which the right-biased
lookup `dictGetLast` preserves.) -/
def audit_map_validator : PyVal → Except String (List (String × Expr))
  | .pexpr (.tuple es) => es.mapM maybe_parse_arg_pair
  | .pexpr (.array es) => es.mapM maybe_parse_arg_pair
  | _ => .error "Defaults must be a tuple of exp.EQ or a dict"

/-- Errors raised through `raise_config_error(..., error_type=AuditConfigError)`.
Each constructor carries the data the message interpolates, so a theorem can
check that the offending fields are named. -/
inductive AuditConfigError where
  | incompleteDefinition
  | auditRequired
  | missingRequiredFields (fields : Finset String)
  | invalidExtraFields (fields : Finset String)
  | missingQuery
  | constructionFailed (msg : String)
  | standaloneBlocking (name : String)
deriving DecidableEq

/-- Errors raised as plain `SQLMeshError`. -/
inductive SQLMeshError where
  | renderFailed (auditName nodeName : String)
  | diffNonAudit (selfName otherName : String)
deriving DecidableEq

/-- `Except.isOk` as a boolean observer. -/
def okB {ε α : Type} : Except ε α → Bool
  | .ok _ => true
  | .error _ => false

/-- The `ModelAudit` pydantic model. `_path` and the `jinja_macros` registry
are diagnostic/opaque handles not inspected by any verified operation and are
omitted. -/
structure ModelAudit where
  name : String
  dialect : String := ""
  skip : Bool := false
  blocking : Bool := true
  query : Expr
  defaults : List (String × Expr) := []
  expressions_ : Option (List Expr) := none

/-- The `expressions` property: `self.expressions_ or []`. -/
def ModelAudit.expressions (a : ModelAudit) : List Expr :=
  a.expressions_.getD []

/-- The `StandaloneAudit` pydantic model. The `owner`, `description`, `tags`
and `stamp` fields are modelled from the spec (they live on the `_Node` base
class, outside the shown core); the memoized `_depends_on` cache is passed as
explicit state by `StandaloneAudit.depends_on_step`. -/
structure StandaloneAudit where
  name : String
  dialect : String := ""
  skip : Bool := false
  blocking : Bool := false
  query : Expr
  defaults : List (String × Expr) := []
  expressions_ : Option (List Expr) := none
  depends_on_ : Option (Finset String) := none
  hash_raw_query : Bool := false
  python_env_ : Option (List (String × Executable)) := none
  owner : Option String := none
  description : Option String := none
  tags : List String := []
  stamp : Option String := none

/-- The `expressions` property. -/
def StandaloneAudit.expressions (a : StandaloneAudit) : List Expr :=
  a.expressions_.getD []

/-- The `python_env` property: `self.python_env_ or {}`. -/
def StandaloneAudit.python_env (a : StandaloneAudit) : List (String × Executable) :=
  a.python_env_.getD []

/-- Constructor arguments for `StandaloneAudit`: a field left as `none` was
not supplied, so the pydantic default applies. -/
structure StandaloneAuditArgs where
  name : String
  query : Expr
  dialect : Option String := none
  skip : Option Bool := none
  blocking : Option Bool := none
  defaults : Option (List (String × Expr)) := none
  expressions : Option (List Expr) := none
  depends_on : Option (Finset String) := none
  hash_raw_query : Option Bool := none
  python_env : Option (List (String × Executable)) := none
  owner : Option String := none
  description : Option String := none
  tags : Option (List String) := none
  stamp : Option String := none

/-- Constructing a `StandaloneAudit`: pydantic fills defaults for unset
fields, the string validator lowercases `name`/`dialect`, and the
`_node_root_validator` then rejects any instance whose `blocking` value is
truthy, so no object is produced in that case. -/
def StandaloneAudit.make (args : StandaloneAuditArgs) : Except AuditConfigError StandaloneAudit :=
  let v : StandaloneAudit :=
    { name := lowerStr args.name
      dialect := match args.dialect with
        | some s => lowerStr s
        | none => ""
      skip := args.skip.getD false
      blocking := args.blocking.getD false
      query := args.query
      defaults := args.defaults.getD []
      expressions_ := args.expressions
      depends_on_ := args.depends_on
      hash_raw_query := args.hash_raw_query.getD false
      python_env_ := args.python_env
      owner := args.owner
      description := args.description
      tags := args.tags.getD []
      stamp := args.stamp }
  if v.blocking then .error (.standaloneBlocking v.name) else .ok v

/-- C1: constructing a `StandaloneAudit` with `blocking=true` always fails
with the configuration error naming the audit, producing no object; with
`blocking` unset, construction succeeds and the resulting object has
`blocking = false`. -/
theorem standalone_audit_blocking_validation (args : StandaloneAuditArgs) :
    (args.blocking = some true →
      StandaloneAudit.make args = .error (.standaloneBlocking (lowerStr args.name))) ∧
    (args.blocking = none →
      (StandaloneAudit.make args).map StandaloneAudit.blocking = .ok false) := by
  constructor
  · intro h
    simp [StandaloneAudit.make, h]
  · intro h
    simp [StandaloneAudit.make, h, Except.map]

/-- Witness for C1: a concrete blocking standalone audit is rejected and the
same audit with `blocking` unset is accepted with `blocking = false`. -/
theorem standalone_audit_blocking_validation_witness :
    (StandaloneAudit.make { name := "A", query := Expr.star, blocking := some true }
      = .error (.standaloneBlocking "a")) ∧
    ((StandaloneAudit.make { name := "A", query := Expr.star }).map StandaloneAudit.blocking
      = .ok false) :=
  ⟨(standalone_audit_blocking_validation
      { name := "A", query := Expr.star, blocking := some true }).1 rfl,
   (standalone_audit_blocking_validation
      { name := "A", query := Expr.star }).2 rfl⟩

/-- Modelled from the spec: the FieldSchema for `ModelAudit` — the pydantic
field bookkeeping lives on the external `PydanticModel` base class; the
required fields are the two declared without defaults. -/
def ModelAudit.required_fields : Finset String :=
  {"name", "query"}

/-- Modelled from the spec: the optional fields of `ModelAudit` (declared
with defaults; `expressions` is the constructor alias of `expressions_`). -/
def ModelAudit.optional_fields : Finset String :=
  {"dialect", "skip", "blocking", "defaults", "expressions", "jinja_macros"}

/-- Modelled from the spec: `missingRequired = required − provided`. -/
def ModelAudit.missing_required_fields (provided : Finset String) : Finset String :=
  ModelAudit.required_fields \ provided

/-- Modelled from the spec: `extraUnknown = provided − (required ∪ optional)`. -/
def ModelAudit.extra_fields (provided : Finset String) : Finset String :=
  provided \ (ModelAudit.required_fields ∪ ModelAudit.optional_fields)

/-- The field names `ModelAudit`'s constructor accepts as keywords in
addition to the explicitly passed `query` and `expressions`. -/
def ModelAudit.kwargFields : List String :=
  ["name", "dialect", "skip", "blocking", "defaults", "jinja_macros"]

/-- `cls(query=query, expressions=statements, **kwargs)` for `ModelAudit`:
a `query`/`expressions` key in `kwargs` collides with the explicit keyword
argument; an unknown key is rejected by the validation framework; otherwise
each field value passes through its validator and unset fields take their
defaults (a `jinja_macros` value taken from a header property can never
coerce to a macro registry). Any failure surfaces as the exception message
`load` wraps into a configuration error. -/
def ModelAudit.construct (query : Expr) (statements : List Expr)
    (kwargs : List (String × PyVal)) : Except String ModelAudit :=
  if kwargs.any (fun p => p.1 == "query" || p.1 == "expressions") then
    .error "got multiple values for keyword argument"
  else if kwargs.any (fun p => !(ModelAudit.kwargFields.contains p.1)) then
    .error "unexpected keyword argument"
  else do
    let name ← match dictGetLast kwargs "name" with
      | none => .error "name: field required"
      | some v => match audit_string_validator v with
        | some s => .ok s
        | none => .error "name: none is not an allowed value"
    let dialect ← match dictGetLast kwargs "dialect" with
      | none => .ok ""
      | some v => match audit_string_validator v with
        | some s => .ok s
        | none => .error "dialect: none is not an allowed value"
    let skip ← match dictGetLast kwargs "skip" with
      | none => .ok false
      | some v => .ok (bool_validator v)
    let blocking ← match dictGetLast kwargs "blocking" with
      | none => .ok true
      | some v => .ok (bool_validator v)
    let defaults ← match dictGetLast kwargs "defaults" with
      | none => .ok []
      | some v => audit_map_validator v
    if (dictGetLast kwargs "jinja_macros").isSome then
      .error "jinja_macros: value is not a valid macro registry"
    else
      .ok { name := name, dialect := dialect, skip := skip, blocking := blocking,
            query := query, defaults := defaults, expressions_ := some statements }

/-- Splits a non-empty list into its leading elements and its last element
(`*statements, query = rest` in the unpacking `meta, *statements, query`). -/
def splitLast {α : Type} : List α → Option (List α × α)
  | [] => none
  | [x] => some ([], x)
  | x :: y :: xs =>
    match splitLast (y :: xs) with
    | some (ys, l) => some (x :: ys, l)
    | none => none

/-- The keyword dictionary built by `load` for construction:
`{dialect: dialectDefault or "", **{prop.name: prop.args.get("value")}}` —
header properties override the dialect default. -/
def headerKwargs (props : List (String × Option Expr)) (dialect : Option String) :
    List (String × PyVal) :=
  ("dialect", PyVal.pstr (dialect.getD "")) ::
    props.map (fun p => (p.1, match p.2 with
      | some e => PyVal.pexpr e
      | none => PyVal.pnone))

/-- The set of field names the header provides:
`{p.name for p in meta.expressions}` with `"query"` implicitly added. -/
def providedFields (props : List (String × Option Expr)) : Finset String :=
  insert "query" (props.map Prod.fst).toFinset

/-- The body of `ModelAudit.load` once the block has been unpacked into
header, middle statements and trailing query: header-type check, field-schema
validation, SELECT check, then construction with
`{dialect: dialectDefault or "", **headerFieldValues}` (header values
override the dialect default, later duplicate properties override earlier
ones). -/
def ModelAudit.loadBlock (meta : Expr) (statements : List Expr) (query : Expr)
    (dialect : Option String) : Except AuditConfigError ModelAudit :=
  match meta.auditProps with
  | none => .error .auditRequired
  | some props =>
    let provided := providedFields props
    let missing := ModelAudit.missing_required_fields provided
    if missing = ∅ then
      let extra := ModelAudit.extra_fields provided
      if extra = ∅ then
        if query.isSubqueryable then
          match ModelAudit.construct query statements (headerKwargs props dialect) with
          | .ok a => .ok a
          | .error msg => .error (.constructionFailed msg)
        else .error .missingQuery
      else .error (.invalidExtraFields extra)
    else .error (.missingRequiredFields missing)

/-- `ModelAudit.load`: fewer than two statements is an incomplete
definition; otherwise the block unpacks as `meta, *statements, query` and
`loadBlock` runs. (The `_path` attached afterwards is diagnostic metadata
and is not modelled; the dangling `breakpoint()` in the missing-fields
branch is an interactive-debugger effect with no data flow.) -/
def ModelAudit.load (exprs : List Expr) (dialect : Option String) :
    Except AuditConfigError ModelAudit :=
  match exprs with
  | meta :: rest =>
    match splitLast rest with
    | some (statements, query) => ModelAudit.loadBlock meta statements query dialect
    | none => .error .incompleteDefinition
  | [] => .error .incompleteDefinition

/-- `ModelAudit.load_multiple` as a generator drained into the list of
definitions it yields plus the error that aborted it, if any: each header
statement closes the accumulating block (when non-empty) and starts a new
one; after the scan the final block is always loaded. A failing `load`
raises out of the generator, so nothing past the bad block is yielded. -/
def ModelAudit.loadMultipleGo (dialect : Option String) :
    List Expr → List Expr → List ModelAudit × Option AuditConfigError
  | [], block =>
    match ModelAudit.load block dialect with
    | .ok a => ([a], none)
    | .error e => ([], some e)
  | e :: rest, block =>
    if isAuditHeader e && !block.isEmpty then
      match ModelAudit.load block dialect with
      | .error err => ([], some err)
      | .ok a =>
        let r := ModelAudit.loadMultipleGo dialect rest [e]
        (a :: r.1, r.2)
    else ModelAudit.loadMultipleGo dialect rest (block ++ [e])

/-- `ModelAudit.load_multiple` on a full statement list. -/
def ModelAudit.load_multiple (exprs : List Expr) (dialect : Option String) :
    List ModelAudit × Option AuditConfigError :=
  ModelAudit.loadMultipleGo dialect exprs []

/-- Sequential per-block loading, written from the claim's words: the i-th
definition comes from exactly the i-th block, and a failing block aborts the
sequence with no further definitions yielded. `load_multiple` is compared
against this. -/
def loadBlocksSpec (dialect : Option String) :
    List (List Expr) → List ModelAudit × Option AuditConfigError
  | [] => ([], none)
  | b :: bs =>
    match ModelAudit.load b dialect with
    | .error e => ([], some e)
    | .ok a =>
      let r := loadBlocksSpec dialect bs
      (a :: r.1, r.2)

/-- A block as the claim describes one: non-empty, starting with a
definition-header statement, with no other header inside. -/
def wfBlock : List Expr → Bool
  | [] => false
  | h :: t => isAuditHeader h && t.all (fun e => !(isAuditHeader e))

/-- Splitting off an explicit last element. -/
theorem splitLast_append_last {α : Type} (xs : List α) (x : α) :
    splitLast (xs ++ [x]) = some (xs, x) := by
  induction xs with
  | nil => rfl
  | cons a as ih =>
    cases as with
    | nil => rfl
    | cons b bs =>
      have ih2 : splitLast (b :: (bs ++ [x])) = some (b :: bs, x) := by
        simpa using ih
      simp [splitLast, ih2]

/-- C2 counterexample: a two-statement block whose header provides exactly
the required field names, so that both `missingRequired` and `extraUnknown`
are empty, still fails to load because its trailing statement is a macro
definition rather than a SELECT query — refuting "load succeeds if and only
if both sets are empty". -/
theorem model_audit_load_iff_counterexample :
    ModelAudit.missing_required_fields (providedFields [("name", some (Expr.lit "a"))]) = ∅ ∧
    ModelAudit.extra_fields (providedFields [("name", some (Expr.lit "a"))]) = ∅ ∧
    ModelAudit.load [Expr.auditHeader [("name", some (Expr.lit "a"))], Expr.macroDef "m" "b"]
      none = .error AuditConfigError.missingQuery :=
  ⟨by decide, by decide, rfl⟩

/-- C2 (amended): for a block `header :: statements ++ [query]`, `load`
computes `missingRequired = required − P` and `extraUnknown = P − (required ∪
optional)` over the header's field-name set `P` (with `"query"` implicitly
included); load succeeds iff both sets are empty, the trailing statement is a
SELECT-class query and field-value construction succeeds; a non-empty set is
a configuration error naming the offending fields. -/
theorem model_audit_load_field_schema (props : List (String × Option Expr))
    (statements : List Expr) (query : Expr) (dialect : Option String) :
    (okB (ModelAudit.load (Expr.auditHeader props :: (statements ++ [query])) dialect) = true ↔
      (ModelAudit.missing_required_fields (providedFields props) = ∅ ∧
       ModelAudit.extra_fields (providedFields props) = ∅ ∧
       query.isSubqueryable = true ∧
       okB (ModelAudit.construct query statements (headerKwargs props dialect)) = true)) ∧
    (ModelAudit.missing_required_fields (providedFields props) ≠ ∅ →
      ModelAudit.load (Expr.auditHeader props :: (statements ++ [query])) dialect =
        .error (.missingRequiredFields
          (ModelAudit.missing_required_fields (providedFields props)))) ∧
    (ModelAudit.missing_required_fields (providedFields props) = ∅ →
     ModelAudit.extra_fields (providedFields props) ≠ ∅ →
      ModelAudit.load (Expr.auditHeader props :: (statements ++ [query])) dialect =
        .error (.invalidExtraFields (ModelAudit.extra_fields (providedFields props)))) := by
  have hload : ModelAudit.load (Expr.auditHeader props :: (statements ++ [query])) dialect =
      ModelAudit.loadBlock (Expr.auditHeader props) statements query dialect := by
    simp [ModelAudit.load, splitLast_append_last]
  refine ⟨?_, ?_, ?_⟩
  · rw [hload]
    simp only [ModelAudit.loadBlock, Expr.auditProps]
    by_cases hm : ModelAudit.missing_required_fields (providedFields props) = ∅
    · by_cases hx : ModelAudit.extra_fields (providedFields props) = ∅
      · by_cases hq : query.isSubqueryable = true
        · cases hc : ModelAudit.construct query statements (headerKwargs props dialect) with
          | ok a => simp [hm, hx, hq, hc, okB]
          | error msg => simp [hm, hx, hq, hc, okB]
        · simp [hm, hx, hq, okB]
      · simp [hm, hx, okB]
    · simp [hm, okB]
  · intro hm
    rw [hload]
    simp [ModelAudit.loadBlock, Expr.auditProps, hm]
  · intro hm hx
    rw [hload]
    simp [ModelAudit.loadBlock, Expr.auditProps, hm, hx]

/-- Witness for C2: a well-formed concrete block (header providing `name`,
trailing SELECT query) loads successfully via the amended equivalence. -/
theorem model_audit_load_field_schema_witness :
    okB (ModelAudit.load
      (Expr.auditHeader [("name", some (Expr.lit "a"))] ::
        ([] ++ [Expr.select [Expr.star] none none])) none) = true :=
  (model_audit_load_field_schema [("name", some (Expr.lit "a"))] []
      (Expr.select [Expr.star] none none) none).1.mpr
    ⟨by decide, by decide, rfl, by decide⟩

/-- The C7 block: header declaring `name='orders_not_null', blocking=true`
and no `dialect` field, followed by the audit query. -/
def ordersNotNullBlock : List Expr :=
  [Expr.auditHeader [("name", some (Expr.lit "orders_not_null")),
                     ("blocking", some (Expr.boolean true))],
   Expr.select [Expr.star] none none]

/-- C7 counterexample: loading that block with loader dialect default
`"snowflake"` yields a definition whose dialect is `"snowflake"` — not the
empty string the claim asserts. -/
theorem model_audit_load_dialect_counterexample :
    (ModelAudit.load ordersNotNullBlock (some "snowflake")).map ModelAudit.dialect =
      .ok "snowflake" ∧ ("snowflake" : String) ≠ "" :=
  ⟨rfl, by decide⟩

/-- C7 (amended): with loader dialect default `"snowflake"` and no explicit
`dialect` header field, the loaded definition carries the loader default
`dialect="snowflake"` (the empty "inherit at render time" dialect arises only
when the loader default itself is empty or absent) and `blocking=true`. -/
theorem model_audit_load_dialect_default :
    (ModelAudit.load ordersNotNullBlock (some "snowflake")).map
        (fun a => (a.name, a.dialect, a.blocking)) =
      .ok ("orders_not_null", "snowflake", true) ∧
    (ModelAudit.load ordersNotNullBlock none).map ModelAudit.dialect = .ok "" :=
  ⟨rfl, rfl⟩

/-- Statements that are not definition headers are only accumulated: the
scan state absorbs them in order. -/
theorem loadMultipleGo_append_nonheaders (dialect : Option String) (xs : List Expr)
    (h : ∀ e ∈ xs, isAuditHeader e = false) (rest block : List Expr) :
    ModelAudit.loadMultipleGo dialect (xs ++ rest) block =
      ModelAudit.loadMultipleGo dialect rest (block ++ xs) := by
  induction xs generalizing block with
  | nil => simp
  | cons a as ih =>
    have ha : isAuditHeader a = false := h a (by simp)
    have htl : ∀ e ∈ as, isAuditHeader e = false := fun e he => h e (by simp [he])
    rw [List.cons_append, ModelAudit.loadMultipleGo]
    simp only [ha, Bool.false_and, Bool.false_eq_true, if_false]
    rw [ih htl (block ++ [a])]
    simp

/-- Once a non-empty block is accumulating and every remaining statement
belongs to well-formed header-led blocks, the scan behaves as sequential
per-block loading. -/
theorem loadMultipleGo_join (dialect : Option String) (bs : List (List Expr))
    (hbs : ∀ b ∈ bs, wfBlock b = true) (block : List Expr)
    (hb : block.isEmpty = false) :
    ModelAudit.loadMultipleGo dialect bs.join block = loadBlocksSpec dialect (block :: bs) := by
  induction bs generalizing block with
  | nil =>
    have hj : (List.join ([] : List (List Expr))) = [] := rfl
    rw [hj]
    cases hl : ModelAudit.load block dialect with
    | ok a => simp [ModelAudit.loadMultipleGo, loadBlocksSpec, hl]
    | error e => simp [ModelAudit.loadMultipleGo, loadBlocksSpec, hl]
  | cons b bs ih =>
    have hwb : wfBlock b = true := hbs b (by simp)
    match b, hwb with
    | hh :: t, hwb =>
      have hhh : isAuditHeader hh = true := by
        have := hwb
        simp [wfBlock, Bool.and_eq_true] at this
        exact this.1
      have ht : ∀ e ∈ t, isAuditHeader e = false := by
        have := hwb
        simp [wfBlock, Bool.and_eq_true, List.all_eq_true] at this
        intro e he
        simpa using this.2 e he
      have hjoin : ((hh :: t) :: bs).join = hh :: (t ++ bs.join) := by simp
      rw [hjoin, ModelAudit.loadMultipleGo]
      simp only [hhh, hb, Bool.not_false, Bool.and_self, if_true]
      rw [loadBlocksSpec]
      cases hl : ModelAudit.load block dialect with
      | error e => simp
      | ok a =>
        simp only
        rw [loadMultipleGo_append_nonheaders dialect t ht bs.join [hh]]
        have : ([hh] ++ t) = hh :: t := rfl
        rw [this]
        rw [ih (fun x hx => hbs x (by simp [hx])) (hh :: t) (by simp)]

/-- All blocks load successfully exactly when the sequential loader reports
no error; then the yielded definitions pair up one-to-one with the blocks. -/
theorem loadBlocksSpec_forall2 (dialect : Option String) (bs : List (List Expr))
    (h : (loadBlocksSpec dialect bs).2 = none) :
    List.Forall₂ (fun b a => ModelAudit.load b dialect = .ok a) bs
      (loadBlocksSpec dialect bs).1 := by
  induction bs with
  | nil => exact List.Forall₂.nil
  | cons b bs ih =>
    cases hl : ModelAudit.load b dialect with
    | error e =>
      rw [loadBlocksSpec, hl] at h
      simp at h
    | ok a =>
      rw [loadBlocksSpec, hl] at h ⊢
      exact List.Forall₂.cons hl (ih h)

/-- C5: on a statement list that is the concatenation of `N` well-formed
header-led blocks, `load_multiple` behaves exactly as sequential per-block
loading — the i-th definition is built from the i-th block's statements, and
a failing block aborts the sequence with nothing yielded past it; when every
block loads, the yielded definitions pair up one-to-one with the `N`
blocks. -/
theorem model_audit_load_multiple_blocks (dialect : Option String)
    (blocks : List (List Expr)) (h0 : 0 < blocks.length)
    (hwf : ∀ b ∈ blocks, wfBlock b = true) :
    ModelAudit.load_multiple blocks.join dialect = loadBlocksSpec dialect blocks ∧
    ((loadBlocksSpec dialect blocks).2 = none →
      List.Forall₂ (fun b a => ModelAudit.load b dialect = .ok a) blocks
        (loadBlocksSpec dialect blocks).1) := by
  refine ⟨?_, loadBlocksSpec_forall2 dialect blocks⟩
  match blocks, h0 with
  | b :: bs, _ =>
    have hwb : wfBlock b = true := hwf b (by simp)
    match b, hwb with
    | hh :: t, hwb =>
      have hhh : isAuditHeader hh = true := by
        have := hwb
        simp [wfBlock, Bool.and_eq_true] at this
        exact this.1
      have ht : ∀ e ∈ t, isAuditHeader e = false := by
        have := hwb
        simp [wfBlock, Bool.and_eq_true, List.all_eq_true] at this
        intro e he
        simpa using this.2 e he
      have hjoin : ((hh :: t) :: bs).join = hh :: (t ++ bs.join) := by simp
      rw [ModelAudit.load_multiple, hjoin, ModelAudit.loadMultipleGo]
      simp only [List.isEmpty_nil, Bool.not_true, Bool.and_false, Bool.false_eq_true, if_false,
        List.nil_append]
      rw [loadMultipleGo_append_nonheaders dialect t ht bs.join [hh]]
      have : ([hh] ++ t) = hh :: t := rfl
      rw [this]
      exact loadMultipleGo_join dialect bs (fun x hx => hwf x (by simp [hx])) (hh :: t) (by simp)

/-- Witness for C5: two concrete well-formed blocks are loaded into exactly
the two definitions the sequential loader produces. -/
theorem model_audit_load_multiple_blocks_witness :
    ModelAudit.load_multiple
      (List.join [[Expr.auditHeader [("name", some (Expr.lit "a"))],
                   Expr.select [Expr.star] none none],
                  [Expr.auditHeader [("name", some (Expr.lit "b"))],
                   Expr.select [Expr.star] none none]]) none =
      loadBlocksSpec none
        [[Expr.auditHeader [("name", some (Expr.lit "a"))],
          Expr.select [Expr.star] none none],
         [Expr.auditHeader [("name", some (Expr.lit "b"))],
          Expr.select [Expr.star] none none]] :=
  (model_audit_load_multiple_blocks none
    [[Expr.auditHeader [("name", some (Expr.lit "a"))],
      Expr.select [Expr.star] none none],
     [Expr.auditHeader [("name", some (Expr.lit "b"))],
      Expr.select [Expr.star] none none]]
    (by decide) (by decide)).1

/-- A model's declared time column (only the column name matters here). -/
structure TimeColumn where
  column : String
  format : Option String := none

/-- The owning `_Model` node as `ModelAudit.render_query` consumes it: name,
dialect, optional time column, the time-value coercion
`convert_to_time_column`, the python environment handed to the renderer, and
the `kind.only_execution_time` flag. The coercion is an external collaborator
and is carried as a function field. -/
structure ModelNode where
  name : String
  dialect : String := ""
  time_column : Option TimeColumn := none
  convert_to_time_column : TimeLike → Option Ctt → Expr := fun t _ => Expr.lit t
  python_env : List (String × Executable) := []
  kind_only_execution_time : Bool := false

/-- A versioned snapshot wrapping a node; `table_name is_dev for_read` is the
physical table-name routing supplied by the external snapshot subsystem. -/
structure Snapshot where
  node : ModelNode
  table_name : Bool → Bool → String

/-- The `snapshot_or_node` argument of `render_query`. -/
inductive SnapshotOrNode where
  | node (n : ModelNode)
  | snapshot (s : Snapshot)

/-- `snapshot_or_node if isinstance(snapshot_or_node, _Node) else snapshot_or_node.node`. -/
def SnapshotOrNode.node_of : SnapshotOrNode → ModelNode
  | .node n => n
  | .snapshot s => s.node

/-- `this_model`: the node's name for a plain node, otherwise the snapshot's
physical table name via `table_name(is_dev=is_dev, for_read=True)`. -/
def SnapshotOrNode.this_model_name : SnapshotOrNode → Bool → String
  | .node n, _ => n.name
  | .snapshot s, is_dev => s.table_name is_dev true

/-- `[s for s in self.expressions if isinstance(s, d.MacroDef)]`. -/
def macroDefinitionsOf (exprs : List Expr) : List Expr :=
  exprs.filter Expr.isMacroDef

/-- The constructor arguments this module passes to the external
`QueryRenderer` (the diagnostic `path` and the opaque jinja registry are
omitted). -/
structure QueryRenderer where
  query : Expr
  dialect : String
  macro_definitions : List Expr
  python_env : List (String × Executable)
  only_execution_time : Bool := false

/-- The arguments of a `QueryRenderer.render` call: the explicitly named
render parameters plus the keyword dictionary, as a lookup function. -/
structure RenderArgs where
  start : Option TimeLike := none
  end_ : Option TimeLike := none
  execution_time : Option TimeLike := none
  snapshots : Option (List (String × Snapshot)) := none
  is_dev : Bool := false
  kwargs : String → Option Expr := fun _ => none

/-- The external renderer's behaviour: `None` models a failed render. -/
abbrev RendererSem := QueryRenderer → RenderArgs → Option Expr

/-- Python dict merge `{**a, **b}` at lookup level: the right dictionary
wins on shared keys. -/
def pyMergeFn {α : Type} (a b : String → Option α) : String → Option α :=
  fun k => match b k with
    | some v => some v
    | none => a k

/-- `exp.to_table(name, dialect=...)`: the external sqlglot parser produces a
table reference for the given name. -/
def to_table (name : String) (dialect : String) : Expr :=
  Expr.table name

/-- `quote_identifiers(e, dialect=...)`: the external dialect-aware quoting
pass, kept as an opaque marker on the expression. -/
def quote_identifiers (e : Expr) (dialect : String) : Expr :=
  Expr.quoted e dialect

/-- `ModelAudit._create_query_renderer`: the audit's dialect falls back to
the model's when empty, the extra statements are filtered down to macro
definitions, and the model's python environment and
`kind.only_execution_time` flag are forwarded. -/
def ModelAudit.create_query_renderer (a : ModelAudit) (node : ModelNode) : QueryRenderer :=
  { query := a.query
    dialect := if a.dialect = "" then node.dialect else a.dialect
    macro_definitions := macroDefinitionsOf a.expressions
    python_env := node.python_env
    only_execution_time := node.kind_only_execution_time }

/-- `StandaloneAudit._create_query_renderer`: the audit's own dialect and the
target audit's python environment; `only_execution_time` keeps the
renderer's default. -/
def StandaloneAudit.create_query_renderer (a target : StandaloneAudit) : QueryRenderer :=
  { query := a.query
    dialect := a.dialect
    macro_definitions := macroDefinitionsOf a.expressions
    python_env := target.python_env
    only_execution_time := false }

/-- The injected time-window predicate: when the node declares a time
column, `column BETWEEN convert(start or EPOCH) AND convert(end or EPOCH)`;
otherwise no predicate. -/
def this_model_where (node : ModelNode) (start end_ : Option TimeLike) (ctt : Option Ctt) :
    Option Expr :=
  match node.time_column with
  | some tc => some (Expr.between (Expr.column tc.column)
      (node.convert_to_time_column (start.getD EPOCH) ctt)
      (node.convert_to_time_column (end_.getD EPOCH) ctt))
  | none => none

/-- The synthesized `this_model` subquery:
`SELECT * FROM <quoted table> WHERE <predicate>` as a subquery. -/
def ModelAudit.synthesized_this_model (a : ModelAudit) (node : ModelNode)
    (this_model : String) (start end_ : Option TimeLike) (ctt : Option Ctt) : Expr :=
  Expr.subquery (Expr.select [Expr.star]
    (some (quote_identifiers (to_table this_model a.dialect) a.dialect))
    (this_model_where node start end_ ctt))

/-- Everything `ModelAudit.render_query` assembles before delegating to the
external renderer: the renderer configuration and the render arguments.
The keyword dictionary is
`{**defaults, **{**{this_model: <subquery>}, **callerKwargs}}` (the mixin
merges defaults under the kwargs `ModelAudit.render_query` forwards, which
are the synthesized `this_model` entry overridden by caller kwargs);
`columns_to_types` comes from best-effort introspection through the optional
engine adapter, with failure already collapsed to `none`. -/
def ModelAudit.render_plan (a : ModelAudit) (target : SnapshotOrNode)
    (start end_ execution_time : Option TimeLike)
    (snapshots : Option (List (String × Snapshot))) (is_dev : Bool)
    (engine_adapter : Option (String → Option Ctt))
    (caller : String → Option Expr) : QueryRenderer × RenderArgs :=
  let node := target.node_of
  let this_model := target.this_model_name is_dev
  let ctt := engine_adapter.bind (fun f => f this_model)
  let synth := a.synthesized_this_model node this_model start end_ ctt
  let merged := pyMergeFn (fun k => if k = "this_model" then some synth else none) caller
  (a.create_query_renderer node,
   { start := start, end_ := end_, execution_time := execution_time,
     snapshots := snapshots, is_dev := is_dev,
     kwargs := pyMergeFn (fun k => dictGetLast a.defaults k) merged })

/-- `ModelAudit.render_query`: delegate the plan to the renderer; a `None`
result is a hard error naming the audit and the node. -/
def ModelAudit.render_query (R : RendererSem) (a : ModelAudit) (target : SnapshotOrNode)
    (start end_ execution_time : Option TimeLike)
    (snapshots : Option (List (String × Snapshot))) (is_dev : Bool)
    (engine_adapter : Option (String → Option Ctt))
    (caller : String → Option Expr) : Except SQLMeshError Expr :=
  let p := a.render_plan target start end_ execution_time snapshots is_dev engine_adapter caller
  match R p.1 p.2 with
  | none => .error (.renderFailed a.name target.node_of.name)
  | some q => .ok q

/-- C6 counterexample: with a caller-supplied `this_model` kwarg, the
rendered keyword context carries the caller's value, not the synthesized
subquery — refuting "the synthesized this-model subquery takes precedence
over caller-supplied kwargs". -/
theorem render_kwargs_this_model_counterexample :
    (((ModelAudit.render_plan
        { name := "a6", query := Expr.select [Expr.star] none none,
          defaults := [("this_model", Expr.lit "default_value")] }
        (.node { name := "m6" }) none none none none false none
        (fun k => if k = "this_model" then some (Expr.lit "caller_value") else none)).2.kwargs
      "this_model") = some (Expr.lit "caller_value")) ∧
    Expr.lit "caller_value" ≠
      ModelAudit.synthesized_this_model
        { name := "a6", query := Expr.select [Expr.star] none none,
          defaults := [("this_model", Expr.lit "default_value")] }
        { name := "m6" } "m6" none none none := by
  constructor
  · rfl
  · simp [ModelAudit.synthesized_this_model]

/-- C6 (amended): the render keyword context is
`{**defaults, thisModel: <subquery>, **callerKwargs}` — a caller kwarg wins
over both a declared default and the synthesized subquery; the synthesized
subquery wins over a declared default for the `this_model` key; every other
key falls back from caller kwargs to the declared defaults. -/
theorem render_kwargs_precedence (a : ModelAudit) (target : SnapshotOrNode)
    (start end_ execution_time : Option TimeLike)
    (snapshots : Option (List (String × Snapshot))) (is_dev : Bool)
    (engine_adapter : Option (String → Option Ctt)) (caller : String → Option Expr) :
    (∀ k v, caller k = some v →
      (a.render_plan target start end_ execution_time snapshots is_dev engine_adapter
        caller).2.kwargs k = some v) ∧
    (caller "this_model" = none →
      (a.render_plan target start end_ execution_time snapshots is_dev engine_adapter
        caller).2.kwargs "this_model" =
        some (a.synthesized_this_model target.node_of (target.this_model_name is_dev)
          start end_ (engine_adapter.bind (fun f => f (target.this_model_name is_dev))))) ∧
    (∀ k, k ≠ "this_model" → caller k = none →
      (a.render_plan target start end_ execution_time snapshots is_dev engine_adapter
        caller).2.kwargs k = dictGetLast a.defaults k) := by
  refine ⟨?_, ?_, ?_⟩
  · intro k v h
    simp [ModelAudit.render_plan, pyMergeFn, h]
  · intro h
    simp [ModelAudit.render_plan, pyMergeFn, h]
  · intro k hk h
    simp [ModelAudit.render_plan, pyMergeFn, h, hk]

/-- Witness for C6 (amended): at a concrete plan, a caller-supplied kwarg
value is what the renderer receives. -/
theorem render_kwargs_precedence_witness :
    (ModelAudit.render_plan
      { name := "a6w", query := Expr.select [Expr.star] none none,
        defaults := [("lim", Expr.lit "3")] }
      (.node { name := "m6w" }) none none none none false none
      (fun k => if k = "lim" then some (Expr.lit "9") else none)).2.kwargs "lim" =
      some (Expr.lit "9") :=
  (render_kwargs_precedence
      { name := "a6w", query := Expr.select [Expr.star] none none,
        defaults := [("lim", Expr.lit "3")] }
      (.node { name := "m6w" }) none none none none false none
      (fun k => if k = "lim" then some (Expr.lit "9") else none)).1
    "lim" (Expr.lit "9") rfl

/-- C8: when the caller does not shadow `this_model`, the renderer receives
the synthesized subquery, whose injected predicate is absent exactly when
the node declares no time column and is otherwise a `BETWEEN` over exactly
the declared column with bounds `convert(start or EPOCH)` and
`convert(end or EPOCH)`. -/
theorem model_audit_time_window_predicate (a : ModelAudit) (target : SnapshotOrNode)
    (start end_ execution_time : Option TimeLike)
    (snapshots : Option (List (String × Snapshot))) (is_dev : Bool)
    (engine_adapter : Option (String → Option Ctt)) (caller : String → Option Expr)
    (hc : caller "this_model" = none) :
    ((a.render_plan target start end_ execution_time snapshots is_dev engine_adapter
        caller).2.kwargs "this_model" =
      some (a.synthesized_this_model target.node_of (target.this_model_name is_dev)
        start end_ (engine_adapter.bind (fun f => f (target.this_model_name is_dev))))) ∧
    (∀ ctt, target.node_of.time_column = none →
      this_model_where target.node_of start end_ ctt = none) ∧
    (∀ ctt tc, target.node_of.time_column = some tc →
      this_model_where target.node_of start end_ ctt =
        some (Expr.between (Expr.column tc.column)
          (target.node_of.convert_to_time_column (start.getD EPOCH) ctt)
          (target.node_of.convert_to_time_column (end_.getD EPOCH) ctt))) := by
  refine ⟨?_, ?_, ?_⟩
  · simp [ModelAudit.render_plan, pyMergeFn, hc]
  · intro ctt h
    simp [this_model_where, h]
  · intro ctt tc h
    simp [this_model_where, h]

/-- Witness for C8: a node with time column `ds` gets exactly the `BETWEEN`
predicate over `ds` with epoch bounds. -/
theorem model_audit_time_window_predicate_witness :
    this_model_where
      (SnapshotOrNode.node
        { name := "m8", time_column := some { column := "ds" } }).node_of
      none none none =
      some (Expr.between (Expr.column "ds")
        ((SnapshotOrNode.node
          { name := "m8", time_column := some { column := "ds" } }).node_of.convert_to_time_column
            ((none : Option TimeLike).getD EPOCH) none)
        ((SnapshotOrNode.node
          { name := "m8", time_column := some { column := "ds" } }).node_of.convert_to_time_column
            ((none : Option TimeLike).getD EPOCH) none)) :=
  (model_audit_time_window_predicate
      { name := "a8", query := Expr.select [Expr.star] none none }
      (.node { name := "m8", time_column := some { column := "ds" } })
      none none none none false none (fun _ => none) rfl).2.2
    none { column := "ds" } rfl

/-- C10: both variants hand the external renderer exactly the extra
statements that are macro definitions; a statement is passed iff it occurs
among the audit's extra statements and is a macro definition, so every other
statement kind is excluded from the render call. -/
theorem renderer_macro_definitions_filter (ma : ModelAudit) (node : ModelNode)
    (sa target : StandaloneAudit) :
    (ma.create_query_renderer node).macro_definitions = macroDefinitionsOf ma.expressions ∧
    (StandaloneAudit.create_query_renderer sa target).macro_definitions =
      macroDefinitionsOf sa.expressions ∧
    (∀ e, e ∈ macroDefinitionsOf ma.expressions ↔
      (e ∈ ma.expressions ∧ e.isMacroDef = true)) ∧
    (∀ e, e ∈ macroDefinitionsOf sa.expressions ↔
      (e ∈ sa.expressions ∧ e.isMacroDef = true)) := by
  refine ⟨rfl, rfl, ?_, ?_⟩ <;>
    intro e <;> simp [macroDefinitionsOf, List.mem_filter]

/-- The mixin `render_query` as a `StandaloneAudit` runs it: renderer built
by `StandaloneAudit._create_query_renderer`, keyword context
`{**defaults, **kwargs}`, a `None` render result raised as a hard error
naming audit and target. -/
def StandaloneAudit.render_query_with (R : RendererSem) (a target : StandaloneAudit)
    (start end_ execution_time : Option TimeLike)
    (snapshots : Option (List (String × Snapshot))) (is_dev : Bool)
    (caller : String → Option Expr) : Except SQLMeshError Expr :=
  let qr := StandaloneAudit.create_query_renderer a target
  match R qr { start := start, end_ := end_, execution_time := execution_time,
               snapshots := snapshots, is_dev := is_dev,
               kwargs := pyMergeFn (fun k => dictGetLast a.defaults k) caller } with
  | none => .error (.renderFailed a.name target.name)
  | some q => .ok q

/-- `self.render_query(self)`: the audit rendered against itself with all
render parameters left at their defaults, as `depends_on` and
`metadata_hash` invoke it. -/
def StandaloneAudit.render_self (R : RendererSem) (a : StandaloneAudit) :
    Except SQLMeshError Expr :=
  StandaloneAudit.render_query_with R a a none none none none false (fun _ => none)

/-- One access to the `depends_on` property with the memo cell passed
explicitly: result, new cache state, and how many render+extraction passes
the access performed. On a cache miss the cell is first seeded with the
declared dependencies (`self.depends_on_ or set()`), the rendered query's
table references (`ft`, the external `d.find_tables` with the audit's
dialect) are unioned in, and the audit's own name is removed; a cache hit
returns the cached set untouched. -/
def StandaloneAudit.depends_on_step (a : StandaloneAudit) (R : RendererSem)
    (ft : Expr → String → Finset String) (cache : Option (Finset String)) :
    Except SQLMeshError (Finset String) × Option (Finset String) × Nat :=
  match cache with
  | some s => (.ok s, some s, 0)
  | none =>
    let s0 := a.depends_on_.getD ∅
    match StandaloneAudit.render_self R a with
    | .error e => (.error e, some s0, 1)
    | .ok q =>
      let s := (s0 ∪ ft q a.dialect) \ {a.name}
      (.ok s, some s, 1)

/-- C3: starting from an unset cache, the first successful `depends_on`
access computes `(declared ∪ extracted) − {own name}`, the second access
returns the identical set, and the two accesses together perform exactly one
render+extraction pass. -/
theorem standalone_depends_on_memoized (R : RendererSem)
    (ft : Expr → String → Finset String) (a : StandaloneAudit) (q : Expr)
    (h : StandaloneAudit.render_self R a = .ok q) :
    ((a.depends_on_step R ft none).1 =
      .ok ((a.depends_on_.getD ∅ ∪ ft q a.dialect) \ {a.name})) ∧
    ((a.depends_on_step R ft (a.depends_on_step R ft none).2.1).1 =
      (a.depends_on_step R ft none).1) ∧
    ((a.depends_on_step R ft none).2.2 +
      (a.depends_on_step R ft (a.depends_on_step R ft none).2.1).2.2 = 1) := by
  refine ⟨?_, ?_, ?_⟩ <;> simp [StandaloneAudit.depends_on_step, h]

/-- The renderer used by the C3 witness: it always yields a reference to
table `t`. -/
def dependsOnR : RendererSem := fun _ _ => some (Expr.table "t")

/-- The table extractor used by the C3 witness. -/
def dependsOnFt : Expr → String → Finset String := fun e _ => {e.name}

/-- The audit used by the C3 witness: it declares a dependency on `u` and is
itself named `w`. -/
def dependsOnAudit : StandaloneAudit :=
  { name := "w", query := Expr.select [Expr.star] none none,
    depends_on_ := some {"u", "w"} }

/-- Witness for C3: the first access on the concrete audit computes
`({u, w} ∪ {t}) − {w}`. -/
theorem standalone_depends_on_memoized_witness :
    (dependsOnAudit.depends_on_step dependsOnR dependsOnFt none).1 =
      .ok ((dependsOnAudit.depends_on_.getD ∅ ∪
        dependsOnFt (Expr.table "t") dependsOnAudit.dialect) \ {dependsOnAudit.name}) :=
  (standalone_depends_on_memoized dependsOnR dependsOnFt dependsOnAudit
    (Expr.table "t") rfl).1

/-- A pipeline node as `text_diff` receives it: either a standalone audit or
some non-audit node, of which only the name is relevant here. -/
inductive Node where
  | model (name : String)
  | audit (a : StandaloneAudit)

/-- `StandaloneAudit.text_diff`: diffing against a non-audit node raises;
otherwise the external `d.text_diff` runs on the two raw queries under the
receiver's dialect. -/
def StandaloneAudit.text_diff (a : StandaloneAudit)
    (td : Expr → Expr → String → String) (other : Node) : Except SQLMeshError String :=
  match other with
  | .audit b => .ok (td a.query b.query a.dialect)
  | .model m => .error (.diffNonAudit a.name m)

/-- C9: `text_diff` errors exactly when the other operand is not a
standalone audit, and otherwise returns the external unified diff applied to
the two raw (unrendered) queries under the receiver's dialect. (The left
operand is the method receiver and is a standalone audit by construction.) -/
theorem standalone_text_diff_delegates (td : Expr → Expr → String → String)
    (a : StandaloneAudit) (other : Node) :
    (∀ b, other = Node.audit b →
      a.text_diff td other = .ok (td a.query b.query a.dialect)) ∧
    (∀ m, other = Node.model m →
      a.text_diff td other = .error (.diffNonAudit a.name m)) := by
  constructor
  · intro b hb
    subst hb
    rfl
  · intro m hm
    subst hm
    rfl

/-- Witness for C9: a concrete pair of standalone audits yields the external
diff of their raw queries, and a concrete non-audit operand yields the
error. -/
theorem standalone_text_diff_delegates_witness :
    (StandaloneAudit.text_diff { name := "x", query := Expr.lit "q1" }
      (fun _ _ dlg => dlg) (Node.audit { name := "y", query := Expr.lit "q2" }) =
      .ok "") ∧
    (StandaloneAudit.text_diff { name := "x", query := Expr.lit "q1" }
      (fun _ _ dlg => dlg) (Node.model "m") =
      .error (.diffNonAudit "x" "m")) :=
  ⟨(standalone_text_diff_delegates (fun _ _ dlg => dlg)
      { name := "x", query := Expr.lit "q1" }
      (Node.audit { name := "y", query := Expr.lit "q2" })).1
      { name := "y", query := Expr.lit "q2" } rfl,
   (standalone_text_diff_delegates (fun _ _ dlg => dlg)
      { name := "x", query := Expr.lit "q1" } (Node.model "m")).2 "m" rfl⟩

/-- Insertion into a sorted list, used to model python's `sorted`. -/
def insertBy {α : Type} (le : α → α → Bool) (x : α) : List α → List α
  | [] => [x]
  | y :: ys => if le x y then x :: y :: ys else y :: insertBy le x ys

/-- Deterministic sorting, modelling python's `sorted` with a key. -/
def sortBy {α : Type} (le : α → α → Bool) : List α → List α
  | [] => []
  | x :: xs => insertBy le x (sortBy le xs)

/-- `sorted(self.tags)`. -/
def sortedStrings (l : List String) : List String :=
  sortBy (fun a b => decide (a ≤ b)) l

/-- `sorted_python_env`: the environment items ordered by
`(executable kind, variable name)` ascending. -/
def StandaloneAudit.sorted_python_env (a : StandaloneAudit) :
    List (String × Executable) :=
  sortBy (fun x y =>
    if x.2.kind = y.2.kind then decide (x.1 ≤ y.1) else decide (x.2.kind < y.2.kind))
    a.python_env

/-- `str(...)` of one python-environment item, a deterministic printer. -/
def envPairStr (p : String × Executable) : String :=
  "(" ++ p.1 ++ ", Executable(" ++ p.2.kind ++ ", " ++ p.2.payload ++ "))"

/-- `str(self.sorted_python_env)`: the string form hashed by
`metadata_hash`. -/
def StandaloneAudit.sorted_python_env_str (a : StandaloneAudit) : String :=
  "[" ++ String.intercalate ", " (a.sorted_python_env.map envPairStr) ++ "]"

/-- The ordered data list `metadata_hash` feeds to the hash engine: owner,
description, sorted tags, the string form of the sorted python environment,
the stamp, and finally the selected query text. -/
def StandaloneAudit.metadata_data (a : StandaloneAudit) (qtext : String) :
    List (Option String) :=
  [a.owner, a.description] ++ (sortedStrings a.tags).map some ++
    [some a.sorted_python_env_str, a.stamp, some qtext]

/-- The metadata hash as a function of the already-selected query text; `hd`
is the external content-addressed hash engine (`hash_data`). -/
def StandaloneAudit.metadata_hash_of_text {α : Type} (hd : List (Option String) → α)
    (a : StandaloneAudit) (qtext : String) : α :=
  hd (a.metadata_data qtext)

/-- `StandaloneAudit.metadata_hash`: the hashed query text is the raw
query's canonical SQL with comments stripped (`sqlF` is the external
serializer, called with `comments=False`) when `hash_raw_query` holds, and
the rendered query's otherwise; a render failure propagates. The `audits`
mapping is accepted and, as in the source, unused. -/
def StandaloneAudit.metadata_hash {α : Type} (hd : List (Option String) → α)
    (sqlF : Expr → Bool → String) (R : RendererSem) (a : StandaloneAudit)
    (audits : List (String × ModelAudit)) : Except SQLMeshError α :=
  match (if a.hash_raw_query then Except.ok a.query else StandaloneAudit.render_self R a) with
  | .error e => .error e
  | .ok q => .ok (StandaloneAudit.metadata_hash_of_text hd a (sqlF q false))

/-- The ordered data list determines every hashed field: its shape
`[owner, description] ++ tags ++ [env, stamp, query]` recovers each
component. -/
theorem metadata_data_inj (a b : StandaloneAudit) (ta tb : String)
    (h : a.metadata_data ta = b.metadata_data tb) :
    a.owner = b.owner ∧ a.description = b.description ∧
    sortedStrings a.tags = sortedStrings b.tags ∧
    a.sorted_python_env_str = b.sorted_python_env_str ∧
    a.stamp = b.stamp ∧ ta = tb := by
  have hlen : (sortedStrings a.tags).length = (sortedStrings b.tags).length := by
    have hl := congrArg List.length h
    simp [StandaloneAudit.metadata_data] at hl
    omega
  unfold StandaloneAudit.metadata_data at h
  have h1 := List.append_inj h (by simp [hlen])
  obtain ⟨h2, h3⟩ := h1
  have h4 := List.append_inj h2 (by simp)
  obtain ⟨h5, h6⟩ := h4
  have htags : sortedStrings a.tags = sortedStrings b.tags :=
    List.map_injective_iff.mpr (fun x y hxy => Option.some.inj hxy) h6
  simp only [List.cons.injEq, Option.some.injEq, and_true] at h5 h3
  exact ⟨h5.1, h5.2, htags, h3.1, h3.2.1, h3.2.2⟩

/-- C4: over a content-addressed (injective) hash engine, the metadata hash
of the listed field tuple (owner, description, sorted tags, python-env
string, stamp, query text) is equal for two audits exactly when every listed
field agrees — equal tuples hash equal and changing any one field changes
the hash; the hashed query text is the raw query's comment-stripped
canonical SQL when `hash_raw_query` holds and the rendered query's
otherwise. -/
theorem standalone_metadata_hash_pure {α : Type} (hd : List (Option String) → α)
    (sqlF : Expr → Bool → String) (R : RendererSem)
    (audits : List (String × ModelAudit)) (a b : StandaloneAudit) (ta tb : String)
    (hinj : Function.Injective hd) :
    (StandaloneAudit.metadata_hash_of_text hd a ta =
        StandaloneAudit.metadata_hash_of_text hd b tb ↔
      (a.owner = b.owner ∧ a.description = b.description ∧
       sortedStrings a.tags = sortedStrings b.tags ∧
       a.sorted_python_env_str = b.sorted_python_env_str ∧
       a.stamp = b.stamp ∧ ta = tb)) ∧
    (a.hash_raw_query = true →
      StandaloneAudit.metadata_hash hd sqlF R a audits =
        .ok (StandaloneAudit.metadata_hash_of_text hd a (sqlF a.query false))) ∧
    (∀ q, a.hash_raw_query = false → StandaloneAudit.render_self R a = .ok q →
      StandaloneAudit.metadata_hash hd sqlF R a audits =
        .ok (StandaloneAudit.metadata_hash_of_text hd a (sqlF q false))) := by
  refine ⟨⟨?_, ?_⟩, ?_, ?_⟩
  · intro h
    exact metadata_data_inj a b ta tb (hinj h)
  · rintro ⟨h1, h2, h3, h4, h5, h6⟩
    unfold StandaloneAudit.metadata_hash_of_text StandaloneAudit.metadata_data
    rw [h1, h2, h3, h4, h5, h6]
  · intro h
    simp [StandaloneAudit.metadata_hash, h]
  · intro q h hr
    simp [StandaloneAudit.metadata_hash, h, hr]

/-- Witness for C4: with the identity hash engine (trivially injective), a
raw-hashing concrete audit hashes the serialized raw query. -/
theorem standalone_metadata_hash_pure_witness :
    StandaloneAudit.metadata_hash (fun l => l) (fun _ _ => "SELECT 1")
      (fun _ _ => none)
      { name := "h4", query := Expr.select [Expr.star] none none,
        hash_raw_query := true } [] =
      .ok (StandaloneAudit.metadata_hash_of_text (fun l => l)
        { name := "h4", query := Expr.select [Expr.star] none none,
          hash_raw_query := true }
        ((fun (_ : Expr) (_ : Bool) => "SELECT 1")
          (Expr.select [Expr.star] none none) false)) :=
  (standalone_metadata_hash_pure (fun l => l) (fun _ _ => "SELECT 1")
      (fun _ _ => none) []
      { name := "h4", query := Expr.select [Expr.star] none none,
        hash_raw_query := true }
      { name := "h4", query := Expr.select [Expr.star] none none,
        hash_raw_query := true }
      "" "" Function.injective_id).2.1 rfl
